import Mathlib

/-!
# LiftLog — verification of the spreadsheet import, replication and loading logic

Shallow embedding of the LiftLog repository (src/importData.py, src/utils.py,
src/main.py).  Spreadsheet cells are modelled explicitly (a missing cell /
pandas `NaN` is `Option.none`, a numeric cell carries a rational), calendar
dates are a `year/month/day` structure, and every call the code makes against
the Supabase store is recorded as an element of a `StoreOp` trace, so that the
order and content of `delete`/`insert` round trips is provable.
-/

namespace LiftLog

/-- A calendar date (no time component), as produced by Python's
`datetime.date`. -/
structure CalDate where
  year : Nat
  month : Nat
  day : Nat
deriving DecidableEq, Repr

/-- Leap-year rule of the Gregorian calendar (Python `calendar.isleap`). -/
def isLeap (y : Nat) : Bool :=
  (y % 4 == 0 && y % 100 != 0) || y % 400 == 0

/-- Number of days in a month of the Gregorian calendar. -/
def daysInMonth (y m : Nat) : Nat :=
  if m = 2 then (if isLeap y then 29 else 28)
  else if m = 4 ∨ m = 6 ∨ m = 9 ∨ m = 11 then 30
  else 31

/-- `mkDate y m d` is the calendar date `y-m-d` when the three components form
a real date, and `none` otherwise (mirroring `datetime.date` raising
`ValueError` on an impossible combination). -/
def mkDate (y m d : Nat) : Option CalDate :=
  if 1 ≤ m ∧ m ≤ 12 ∧ 1 ≤ d ∧ d ≤ daysInMonth y m then some ⟨y, m, d⟩ else none

/-- Split a character list on a separator character; `"a/b"` gives
`["a", "b"]` and the empty input gives `[[]]`. -/
def splitOnSep (sep : Char) : List Char → List (List Char)
  | [] => [[]]
  | c :: cs =>
    let r := splitOnSep sep cs
    if c = sep then [] :: r
    else
      match r with
      | g :: gs => (c :: g) :: gs
      | [] => [[c]]

/-- Read a non-empty all-digit character group as a natural number. -/
def digitsToNat (l : List Char) : Option Nat :=
  if l ≠ [] ∧ l.all Char.isDigit then
    some (l.foldl (fun a c => a * 10 + (c.toNat - 48)) 0)
  else none

/-- dateutil's day-first handling of three numeric groups `a/b/c`: prefer the
reading day=`a`, month=`b`, year=`c`; when that is not a real calendar date
fall back to month=`a`, day=`b` (dayfirst is a preference, not a hard rule,
in `dateutil.parser`). -/
def parseDMY (a b c : Nat) : Option CalDate :=
  match mkDate c b a with
  | some d => some d
  | none => mkDate c a b

/-- Modelled external library call: `dateutil.parser.parse(s, dayfirst=True).date()`
as invoked at src/importData.py:41, restricted to the slash-separated numeric
form `D/M/Y` that the import data and the spec exercise.  Strings outside
this form (free-text annotations such as "Chest + Back", blanks, the string
"nan" produced by `str(NaN)`) fail to parse, which the code observes as a
caught `ParserError`, i.e. `none` here.  Two-digit-year windowing and
non-slash formats of the library are outside the claims and modelled as
parse failures.  Under-specified strings (e.g. `"05/03"` with no year),
which the library completes from `datetime.now()`, are modelled by the
clock-aware `parseDayfirstAt` further below; this clock-free function covers
the fully-specified forms only. -/
def parseDayfirst (s : String) : Option CalDate :=
  match (splitOnSep '/' s.data).map digitsToNat with
  | [some a, some b, some c] => parseDMY a b c
  | _ => none

/-- Modelled external library call:
`pd.to_datetime(x, format="%Y-%m-%d", errors="coerce").dt.date` as invoked at
src/utils.py:119 — a strict `Y-M-D` dash format; anything else coerces to
`NaT`, i.e. `none`. -/
def parseStrictYMD (s : String) : Option CalDate :=
  match (splitOnSep '-' s.data).map digitsToNat with
  | [some y, some m, some d] => mkDate y m d
  | _ => none

/-- A spreadsheet cell: `none` is a blank / pandas `NaN`, `some s` holds the
cell's textual content. -/
abbrev Cell := Option String

/-- A cell expected to be numeric: blank, a numeric value, or non-numeric
text.  `pd.to_numeric(·, errors="coerce")` maps `num q` to `q` and the other
two to `NaN`; numeric-looking strings are represented directly with `num`. -/
inductive NumCell where
  | blank
  | num (q : ℚ)
  | text (s : String)
deriving DecidableEq, Repr

/-- The value `pd.to_numeric(·, errors="coerce")` yields for a cell, with
`NaN` as `none`. -/
def NumCell.toNumQ : NumCell → Option ℚ
  | .blank => none
  | .num q => some q
  | .text _ => none

/-- `True` when the cell is a pandas `NaN` (dropped by
`dropna(subset=["Reps", "WeightKG"])`). -/
def NumCell.isBlank : NumCell → Bool
  | .blank => true
  | _ => false

/-- One row of the uploaded spreadsheet, as read by `pd.read_excel`, with the
five columns the importers consume. -/
structure RawRow where
  workoutID : Cell
  workoutDate : Cell
  exerciseName : Cell
  reps : NumCell
  weightKG : NumCell
deriving DecidableEq, Repr

/-- `int(q)` / pandas `astype(int)`: truncation toward zero. -/
def truncQ (q : ℚ) : Int := Int.tdiv q.num q.den

/-! ## src/importData.py — `replace_data_from_excel`

The custom forward-fill of the `WorkoutDate` column (lines 34–47): one pass in
file order carrying `last_valid_date`, updated only when
`parse(str(raw_date), dayfirst=True)` succeeds. -/

/-- `str(raw_date)` followed by the day-first parse attempt of
src/importData.py:41: a blank cell stringifies to `"nan"`, which the parser
rejects. -/
def parseRawCell (c : Cell) : Option CalDate :=
  match c with
  | none => none
  | some s => parseDayfirst s

/-- One iteration of the loop of src/importData.py:37-46: on parse success
`last_valid_date` becomes the parsed date, on failure it is left unchanged. -/
def ffStep (last : Option CalDate) (c : Cell) : Option CalDate :=
  match parseRawCell c with
  | some d => some d
  | none => last

/-- The loop body of src/importData.py:37-46 with explicit `last_valid_date`
state: each row appends the current `last_valid_date` after its own cell has
been processed. -/
def cleanedDatesAux : Option CalDate → List Cell → List (Option CalDate)
  | _, [] => []
  | last, c :: cs =>
    let last' := ffStep last c
    last' :: cleanedDatesAux last' cs

/-- The `cleaned_dates` list of src/importData.py:35-46: `last_valid_date`
starts unset (`None`). -/
def cleanedDates (cells : List Cell) : List (Option CalDate) :=
  cleanedDatesAux none cells

/-- Ordinary forward-fill of a sparse column (`Series.ffill`): carry the last
non-blank value; a non-blank cell always overwrites the carried value. -/
def ffillAux : Option α → List (Option α) → List (Option α)
  | _, [] => []
  | last, c :: cs =>
    let v := match c with | some x => some x | none => last
    v :: ffillAux v cs

/-- `Series.ffill()` starting with nothing to carry. -/
def ffill (l : List (Option α)) : List (Option α) :=
  ffillAux none l

/-- Forward-fill of the `WorkoutID` and `ExerciseName` columns
(src/importData.py:31-32).  The two columns are forward-filled independently
by pandas; the fused single pass below fills both fields of each row from the
per-column carried state, which is the same computation row by row. -/
def ffillIdExAux : Option String → Option String → List RawRow → List RawRow
  | _, _, [] => []
  | lastId, lastEx, r :: rs =>
    let id := match r.workoutID with | some x => some x | none => lastId
    let ex := match r.exerciseName with | some x => some x | none => lastEx
    { r with workoutID := id, exerciseName := ex } :: ffillIdExAux id ex rs

/-- src/importData.py:31-32 applied to the whole sheet. -/
def ffillIdEx (rows : List RawRow) : List RawRow :=
  ffillIdExAux none none rows

/-- Rows of `replace_data_from_excel` paired with their `CleanedDate`
(src/importData.py:47: `df["CleanedDate"] = cleaned_dates`), after the
`WorkoutID`/`ExerciseName` forward-fill. -/
def resolveRows (rows : List RawRow) : List (RawRow × Option CalDate) :=
  (ffillIdEx rows).zip (cleanedDates (rows.map (·.workoutDate)))

/-- src/importData.py:50: `df.dropna(subset=["CleanedDate"])` — keep exactly
the rows whose resolved date is set, in order, with the date made total. -/
def afterDateDrop (rows : List RawRow) : List (RawRow × CalDate) :=
  (resolveRows rows).filterMap (fun p => p.2.map (fun d => (p.1, d)))

/-! ## src/utils.py — `import_excel_workouts`

The app-side importer: ordinary `ffill` of the three sparse columns
(line 111), numeric coercion and drops (lines 112–116), strict `%Y-%m-%d`
date parsing of the already-filled column (lines 119–120), then the
replace-all store calls (lines 122–147). -/

/-- A row after `pd.to_numeric` has replaced `Reps`/`WeightKG` with numbers
(src/utils.py:115). -/
structure NumRow where
  workoutID : Cell
  workoutDate : Cell
  exerciseName : Cell
  reps : ℚ
  weight : ℚ
deriving DecidableEq, Repr

/-- One dictionary of `workout_data` (src/utils.py:127-133): the record
inserted into the `workouts` table.  The exercise cell may still be unset
when `ExerciseName` never appeared before this row. -/
structure WorkoutRec where
  workout_date : CalDate
  exercise : Cell
  sets : Int
  reps : Int
  weight : ℚ
deriving DecidableEq, Repr

/-- Forward-fill of the `WorkoutID`, `WorkoutDate` and `ExerciseName` columns
(src/utils.py:111).  pandas fills the three columns independently; the fused
single pass fills all three fields of each row from the per-column carried
state, which is the same computation row by row. -/
def ffillRowsAux : Option String → Option String → Option String → List RawRow → List RawRow
  | _, _, _, [] => []
  | lastId, lastDate, lastEx, r :: rs =>
    let id := match r.workoutID with | some x => some x | none => lastId
    let date := match r.workoutDate with | some x => some x | none => lastDate
    let ex := match r.exerciseName with | some x => some x | none => lastEx
    { r with workoutID := id, workoutDate := date, exerciseName := ex } ::
      ffillRowsAux id date ex rs

/-- src/utils.py:111 applied to the whole sheet. -/
def filledRows (rows : List RawRow) : List RawRow :=
  ffillRowsAux none none none rows

/-- src/utils.py:112: `df.dropna(subset=["Reps", "WeightKG"])`. -/
def stepDropBlankNums (rows : List RawRow) : List RawRow :=
  rows.filter (fun r => !r.reps.isBlank && !r.weightKG.isBlank)

/-- src/utils.py:115-116: coerce `Reps`/`WeightKG` with
`pd.to_numeric(errors="coerce")` and drop the rows where coercion yields
`NaN`. -/
def stepNumeric (rows : List RawRow) : List NumRow :=
  rows.filterMap (fun r =>
    match r.reps.toNumQ, r.weightKG.toNumQ with
    | some q1, some q2 => some ⟨r.workoutID, r.workoutDate, r.exerciseName, q1, q2⟩
    | _, _ => none)

/-- src/utils.py:119-120: parse the (already forward-filled) `WorkoutDate`
column with the strict `%Y-%m-%d` format and drop the rows that coerce to
`NaT`. -/
def stepDate (rows : List NumRow) : List (NumRow × CalDate) :=
  rows.filterMap (fun r => (r.workoutDate.bind parseStrictYMD).map (fun d => (r, d)))

/-- The rows of the dataframe that survive all of src/utils.py:110-120,
paired with their `CleanedDate`. -/
def importSurvivors (rows : List RawRow) : List (NumRow × CalDate) :=
  stepDate (stepNumeric (stepDropBlankNums (filledRows rows)))

/-- One `workout_data` entry (src/utils.py:127-133): `sets` is the literal
`1`, `reps` is `int(row["Reps"])`. -/
def workoutRecordOf (p : NumRow × CalDate) : WorkoutRec :=
  ⟨p.2, p.1.exerciseName, 1, truncQ p.1.reps, p.1.weight⟩

/-- The `workout_data` list of src/utils.py:127-133. -/
def importedRecords (rows : List RawRow) : List WorkoutRec :=
  (importSurvivors rows).map workoutRecordOf

/-! ## Store operations

Every round trip `import_excel_workouts` (src/utils.py) makes against the
Supabase tables, in the order the code issues them. -/

/-- One call against the persistent store. -/
inductive StoreOp where
  /-- `supabase.table("workouts").delete().neq("id", -1).execute()` -/
  | deleteAllWorkouts
  /-- one `supabase.table("workouts").insert(chunk).execute()` -/
  | insertWorkouts (ws : List WorkoutRec)
  /-- `supabase.table("exercises").delete().neq("id", -1).execute()` -/
  | deleteAllExercises
  /-- `supabase.table("exercises").insert([{"name": ex} for ex in names]).execute()` -/
  | insertExercises (names : List String)
deriving DecidableEq, Repr

/-- Python `workout_data[i:i + chunk_size]` slicing over
`range(0, len(workout_data), chunk_size)` (src/utils.py:136-138): cut a list
into consecutive chunks of at most `n` elements; an empty list yields no
chunk at all. -/
def chunksOf (n : Nat) (l : List α) : List (List α) :=
  if _h1 : n = 0 then []
  else if h2 : l.isEmpty then []
  else l.take n :: chunksOf n (l.drop n)
termination_by l.length
decreasing_by
  have hl : l ≠ [] := by simpa using h2
  have := List.length_pos.mpr hl
  simp [List.length_drop]
  omega

/-- pandas `Series.unique()`: the distinct values in first-occurrence
order. -/
def uniqueFirstAux [DecidableEq α] : List α → List α → List α
  | [], _ => []
  | a :: l, seen => if a ∈ seen then uniqueFirstAux l seen else a :: uniqueFirstAux l (a :: seen)

/-- pandas `Series.unique()` over a whole column. -/
def uniqueFirst [DecidableEq α] (l : List α) : List α :=
  uniqueFirstAux l []

/-- `sorted(...)` on strings: ascending lexicographic (code-point) order, the
comparison Python and Lean share. -/
def sortedStrings (l : List String) : List String :=
  List.insertionSort (· ≤ ·) l

/-- The uploaded Excel file as the importer sees it: the column names pandas
finds in the sheet, and the rows (meaningful when the five required columns
are present). -/
structure UploadedFile where
  cols : List String
  rows : List RawRow

/-- src/utils.py:104: the five required column names. -/
def requiredColumns : List String :=
  ["WorkoutID", "WorkoutDate", "ExerciseName", "Reps", "WeightKG"]

/-- src/utils.py:105: `required_columns - set(df.columns)` (in the fixed
order of `requiredColumns`; the Python set has no specified order). -/
def missingColumns (cols : List String) : List String :=
  requiredColumns.filter (fun c => ¬ c ∈ cols)

/-- What `import_excel_workouts` returns together with the store calls it
performed: the `(success, message)` pair of src/utils.py:107/147/149 and the
trace of Supabase round trips. -/
structure ImportResult where
  success : Bool
  message : String
  trace : List StoreOp
deriving DecidableEq, Repr

/-- src/utils.py:94-149, `import_excel_workouts`, with store calls recorded
as a trace.  Store/network failures are not modelled (every store call is
assumed to succeed).  A surviving row whose `ExerciseName` is still unset
reaches `sorted(df["ExerciseName"].unique())` (src/utils.py:142) as a float
`NaN` mixed with strings, which raises `TypeError` into the `except` arm
after the workout inserts have already run; that arm is the `else` branch
below. -/
def importExcel (file : UploadedFile) : ImportResult :=
  let missing := missingColumns file.cols
  if missing ≠ [] then
    -- src/utils.py:106-107
    { success := false
      message := "Missing columns: " ++ String.intercalate ", " missing
      trace := [] }
  else
    let recs := importedRecords file.rows
    let exCells := (importSurvivors file.rows).map (fun p => p.1.exerciseName)
    let workoutOps := (chunksOf 100 recs).map StoreOp.insertWorkouts
    if exCells.all Option.isSome then
      let names := sortedStrings (uniqueFirst (exCells.filterMap id))
      { success := true
        -- src/utils.py:147
        message := "Successfully imported " ++ toString recs.length ++ " workouts"
        -- src/utils.py:124 (delete workouts), 136-139 (chunked inserts),
        -- 143 (delete exercises), 144 (insert exercise names)
        trace := [.deleteAllWorkouts] ++ workoutOps ++
          [.deleteAllExercises, .insertExercises names] }
    else
      { success := false
        message := "Error importing Excel file: unorderable exercise names"
        trace := [.deleteAllWorkouts] ++ workoutOps }

/-! ## src/main.py — the manual-entry form and `save_workout` -/

/-- The record `save_workout` (src/utils.py:51-59) inserts into the
`workouts` table for a manual entry. -/
structure ManualWorkout where
  workout_date : CalDate
  exercise : String
  sets : Int
  reps : Int
  weight : ℚ
deriving DecidableEq, Repr

/-- src/utils.py:51-59: `save_workout` stores its five arguments verbatim
(`str(pd.Timestamp(date).date())` keeps the calendar date). -/
def save_workout (date : CalDate) (exercise : String) (sets : Int) (reps : Int)
    (weight : ℚ) : ManualWorkout :=
  { workout_date := date, exercise := exercise, sets := sets, reps := reps, weight := weight }

/-- Python `str.strip()` (src/main.py:196): remove leading and trailing
whitespace. -/
def pyStrip (s : String) : String :=
  ⟨((s.data.dropWhile Char.isWhitespace).reverse.dropWhile Char.isWhitespace).reverse⟩

/-- Python `str.title()` for ASCII text (src/main.py:201): uppercase an
alphabetic character that follows a non-alphabetic one, lowercase the other
alphabetic characters. -/
def titleCaseAux : Bool → List Char → List Char
  | _, [] => []
  | prevAlpha, c :: cs =>
    (if c.isAlpha then (if prevAlpha then c.toLower else c.toUpper) else c) ::
      titleCaseAux c.isAlpha cs

/-- `exercise_clean.title()` over a whole string. -/
def titleCase (s : String) : String :=
  ⟨titleCaseAux false s.data⟩

/-- The submit handler of the workout form (src/main.py:194-215): strip the
exercise name, refuse an empty one (`st.error` + `st.stop`, i.e. `none`),
title-case it, and call `save_workout(selected_date, exercise_clean, 1, reps,
weight)` — the `sets` argument is the literal `1` at src/main.py:213.  The
form itself collects only reps and weight. -/
def workoutFormSubmit (selectedDate : CalDate) (exercise : String) (reps : Int)
    (weight : ℚ) : Option ManualWorkout :=
  let exerciseClean := pyStrip exercise
  if exerciseClean = "" then none
  else some (save_workout selectedDate (titleCase exerciseClean) 1 reps weight)

/-! ## src/utils.py — `load_data` and `replicate_day_workouts`

Stored rows carry a `workout_date`; for this part of the code only
comparisons and day arithmetic on dates matter, so a calendar date is
abstracted as its day index (an integer), with `datetime.now().date()` passed
in explicitly as `today`. -/

/-- A row of the `workouts` table as `load_data` returns it. -/
structure StoredWorkout where
  id : Nat
  workout_date : Int
  exercise : String
  sets : Int
  reps : Int
  weight : ℚ
deriving DecidableEq, Repr

/-- `.order("workout_date")` (src/utils.py:29): the store returns the rows in
ascending `workout_date` order (a stable sort of the selected rows). -/
def sortByDate (rows : List StoredWorkout) : List StoredWorkout :=
  List.insertionSort (fun a b => a.workout_date ≤ b.workout_date) rows

/-- The full ordered result set of the query built at src/utils.py:29-32:
optionally restricted to `workout_date ≥ (now - 45 days).date()`, then
ordered by `workout_date`. -/
def queryRows (store : List StoredWorkout) (today : Int) (last45Days : Bool) :
    List StoredWorkout :=
  let q := if last45Days then store.filter (fun w => today - 45 ≤ w.workout_date) else store
  sortByDate q

/-- The batching loop of src/utils.py:35-39: for each offset, fetch
`query.range(offset, offset + batch_size - 1)` (the slice of the ordered
result set), stop at the first empty batch, and concatenate. -/
def batchLoop (sorted : List StoredWorkout) : List Nat → List StoredWorkout
  | [] => []
  | off :: rest =>
    let batch := (sorted.drop off).take 1000
    if batch.isEmpty then [] else batch ++ batchLoop sorted rest

/-- src/utils.py:23-48, `load_data`: offsets `range(0, 12000, 1000)` with
`batch_size = 1000`.  (The final DataFrame conversion keeps the rows as
fetched.) -/
def load_data (store : List StoredWorkout) (today : Int) (last45Days : Bool) :
    List StoredWorkout :=
  batchLoop (queryRows store today last45Days) ((List.range 12).map (· * 1000))

/-- A row inserted by `replicate_day_workouts` (src/utils.py:164-170). -/
structure NewWorkout where
  workout_date : Int
  exercise : String
  sets : Int
  reps : Int
  weight : ℚ
deriving DecidableEq, Repr

/-- The copy src/utils.py:164-170 builds from a loaded workout: dated today,
the other four fields taken from the source row. -/
def replicatedCopy (today : Int) (w : StoredWorkout) : NewWorkout :=
  { workout_date := today, exercise := w.exercise, sets := w.sets,
    reps := w.reps, weight := w.weight }

/-- src/utils.py:152-177, `replicate_day_workouts`: load the data (note the
default `last_45_days=True` of `load_data`), keep the loaded rows whose date
equals `source_date`, fail when there are none, otherwise bulk-insert the
copies dated today.  Result: `(success, message, inserted rows)`. -/
def replicate_day_workouts (store : List StoredWorkout) (today : Int)
    (source_date : Int) : Bool × String × List NewWorkout :=
  let df := load_data store today true
  let source_workouts := df.filter (fun w => w.workout_date = source_date)
  if source_workouts.isEmpty then
    (false, "No workouts found for the selected date", [])
  else
    (true,
     "Successfully replicated " ++ toString source_workouts.length ++ " workouts",
     source_workouts.map (replicatedCopy today))

/-! ## Helper lemmas about the forward-fill resolver -/

theorem cleanedDatesAux_length (last : Option CalDate) (cells : List Cell) :
    (cleanedDatesAux last cells).length = cells.length := by
  induction cells generalizing last with
  | nil => rfl
  | cons c cs ih => simp [cleanedDatesAux, ih]

theorem cleanedDatesAux_getElem? (cells : List Cell) (last : Option CalDate) (i : Nat)
    (hi : i < cells.length) :
    (cleanedDatesAux last cells)[i]? = some ((cells.take (i + 1)).foldl ffStep last) := by
  induction cells generalizing last i with
  | nil => simp at hi
  | cons c cs ih =>
    cases i with
    | zero => simp [cleanedDatesAux]
    | succ j =>
      have hj : j < cs.length := by simpa using hi
      simpa [cleanedDatesAux] using ih (ffStep last c) j hj

theorem cleanedDatesAux_take (cells : List Cell) (last : Option CalDate) (n : Nat) :
    cleanedDatesAux last (cells.take n) = (cleanedDatesAux last cells).take n := by
  induction cells generalizing last n with
  | nil => simp [cleanedDatesAux]
  | cons c cs ih =>
    cases n with
    | zero => simp [cleanedDatesAux]
    | succ m => simp [cleanedDatesAux, ih]

/-- Dropping the pairs with an unset second component from a list of pairs
via `filterMap` is the same as filtering on `isSome`. -/
theorem filterMap_snd_eq_filter_isSome (l : List (α × Option β)) :
    (l.filterMap (fun p => p.2.map (fun d => (p.1, d)))).map (fun q => (q.1, some q.2)) =
      l.filter (fun p => p.2.isSome) := by
  induction l with
  | nil => rfl
  | cons p l ih =>
    obtain ⟨a, b⟩ := p
    cases b with
    | none => simpa [List.filterMap_cons, List.filter_cons] using ih
    | some d => simpa [List.filterMap_cons, List.filter_cons] using ih

/-! ## C1 — the date forward-fill resolver of the importer -/

/-- C1.  The importer resolves dates by forward-fill in original file order:
the resolved-date column has one entry per row; the entry of row `i` is the
state of `last_valid_date` after folding `ffStep` (update only on a
successful parse, leave unchanged on any failure) over the first `i + 1`
`WorkoutDate` cells, starting from unset; and the subsequent
`dropna(subset=["CleanedDate"])` keeps exactly the rows whose resolved date
is set, in order. -/
theorem date_forward_fill_resolver (rows : List RawRow) (i : Nat)
    (hi : i < rows.length) :
    (cleanedDates (rows.map (·.workoutDate))).length = rows.length
    ∧ (cleanedDates (rows.map (·.workoutDate)))[i]? =
        some (((rows.map (·.workoutDate)).take (i + 1)).foldl ffStep none)
    ∧ (afterDateDrop rows).map (fun q => (q.1, some q.2)) =
        (resolveRows rows).filter (fun p => p.2.isSome) := by
  refine ⟨?_, ?_, ?_⟩
  · simpa using cleanedDatesAux_length none (rows.map (·.workoutDate))
  · exact cleanedDatesAux_getElem? (rows.map (·.workoutDate)) none i (by simpa using hi)
  · exact filterMap_snd_eq_filter_isSome (resolveRows rows)

/-- A concrete three-row sheet for the C1 witness: a dated row, an annotation
row, a blank row. -/
def sampleSheetC1 : List RawRow :=
  [⟨some "1", some "05/03/2024", some "Bench", .num 10, .num 20⟩,
   ⟨none, some "Chest + Back", none, .num 8, .num 20⟩,
   ⟨none, none, none, .num 8, .num 20⟩]

/-- Witness for C1 at `sampleSheetC1`. -/
theorem date_forward_fill_resolver_witness :
    (cleanedDates (sampleSheetC1.map (·.workoutDate))).length = sampleSheetC1.length
    ∧ (cleanedDates (sampleSheetC1.map (·.workoutDate)))[1]? =
        some (((sampleSheetC1.map (·.workoutDate)).take 2).foldl ffStep none)
    ∧ (afterDateDrop sampleSheetC1).map (fun q => (q.1, some q.2)) =
        (resolveRows sampleSheetC1).filter (fun p => p.2.isSome) :=
  date_forward_fill_resolver sampleSheetC1 1 (by decide)

/-! ## C2 — day-first disambiguation -/

/-- C2.  For every date string of the numeric form `D/M/Y` whose day-first
reading is a real calendar date, the importer's parse resolves the first
numeric group as the day. -/
theorem dayfirst_disambiguation (s : String) (d m y : Nat)
    (hform : (splitOnSep '/' s.data).map digitsToNat = [some d, some m, some y])
    (hvalid : mkDate y m d = some ⟨y, m, d⟩) :
    parseDayfirst s = some ⟨y, m, d⟩ := by
  unfold parseDayfirst
  rw [hform]
  show parseDMY d m y = some ⟨y, m, d⟩
  unfold parseDMY
  rw [hvalid]

/-- Witness for C2: the input `"05/03/2024"` resolves to year 2024, month 3,
day 5. -/
theorem dayfirst_disambiguation_witness :
    parseDayfirst "05/03/2024" = some ⟨2024, 3, 5⟩ :=
  dayfirst_disambiguation "05/03/2024" 5 3 2024 (by decide) (by decide)

/-! ## C8 — forward-fill determinism and the wall clock

`dateutil.parser.parse` fills the components a string leaves unspecified
from its `default` datetime, which is `datetime.now()` when no default is
passed — as at src/importData.py:41.  A cell like `"05/03"` therefore parses
successfully with the *current* year, so the resolver's output depends on the
wall clock on under-specified inputs.  The clock-aware model below extends
`parseDayfirst` with the two-group `D/M` slash form, the year filled from
`today`; fully-specified three-group strings parse exactly as in
`parseDayfirst`, independently of `today`. -/

/-- Modelled external library call: `dateutil.parser.parse(s, dayfirst=True)`
with its implicit `default = datetime.now()` made explicit as `today`.
Three numeric slash groups parse as in `parseDayfirst` (no component is
missing, so `today` is unused); two numeric slash groups are day/month with
the year taken from `today` (dayfirst preference with the same
swap-on-invalid fallback); other forms that the library completes from the
clock (e.g. weekday names) are outside the claims and modelled as parse
failures. -/
def parseDayfirstAt (today : CalDate) (s : String) : Option CalDate :=
  match (splitOnSep '/' s.data).map digitsToNat with
  | [some a, some b, some c] => parseDMY a b c
  | [some a, some b] => parseDMY a b today.year
  | _ => none

/-- The clock-aware extension agrees with `parseDayfirst` on every
fully-specified three-group string: only under-specified cells read the
clock. -/
theorem parseDayfirstAt_eq_parseDayfirst (today : CalDate) (s : String)
    (a b c : Nat)
    (hform : (splitOnSep '/' s.data).map digitsToNat = [some a, some b, some c]) :
    parseDayfirstAt today s = parseDayfirst s := by
  unfold parseDayfirstAt parseDayfirst
  rw [hform]

/-- `str(raw_date)` followed by the clock-aware parse attempt
(src/importData.py:41 run at current date `today`). -/
def parseRawCellAt (today : CalDate) (c : Cell) : Option CalDate :=
  match c with
  | none => none
  | some s => parseDayfirstAt today s

/-- One iteration of the loop of src/importData.py:37-46 under the
clock-aware parse. -/
def ffStepAt (today : CalDate) (last : Option CalDate) (c : Cell) : Option CalDate :=
  match parseRawCellAt today c with
  | some d => some d
  | none => last

/-- The loop of src/importData.py:37-46 with explicit `last_valid_date` state,
run at current date `today`. -/
def cleanedDatesAtAux (today : CalDate) :
    Option CalDate → List Cell → List (Option CalDate)
  | _, [] => []
  | last, c :: cs =>
    let last' := ffStepAt today last c
    last' :: cleanedDatesAtAux today last' cs

/-- The `cleaned_dates` list of src/importData.py:35-46 as a function of the
current date `today` that `dateutil` reads for under-specified cells. -/
def cleanedDatesAt (today : CalDate) (cells : List Cell) : List (Option CalDate) :=
  cleanedDatesAtAux today none cells

theorem cleanedDatesAtAux_take (today : CalDate) (cells : List Cell)
    (last : Option CalDate) (n : Nat) :
    cleanedDatesAtAux today last (cells.take n) =
      (cleanedDatesAtAux today last cells).take n := by
  induction cells generalizing last n with
  | nil => simp [cleanedDatesAtAux]
  | cons c cs ih =>
    cases n with
    | zero => simp [cleanedDatesAtAux]
    | succ m => simp [cleanedDatesAtAux, ih]

/-- Counterexample to C8 as stated: the very same one-cell input sequence
`["05/03"]` resolves to 5 March 2024 when the import runs with the clock at
2024 and to 5 March 2025 when it runs with the clock at 2025 — `dateutil`
completes the missing year from `datetime.now()`, so repeated runs of the
resolver on a fixed input are not wall-clock independent. -/
theorem resolver_wall_clock_counterexample :
    cleanedDatesAt ⟨2024, 1, 1⟩ [some "05/03"] ≠ cleanedDatesAt ⟨2025, 1, 1⟩ [some "05/03"]
    ∧ cleanedDatesAt ⟨2024, 1, 1⟩ [some "05/03"] = [some ⟨2024, 3, 5⟩]
    ∧ cleanedDatesAt ⟨2025, 1, 1⟩ [some "05/03"] = [some ⟨2025, 3, 5⟩] := by
  refine ⟨by decide, by decide, by decide⟩

/-- C8, amended.  With the current date fixed, the resolver is deterministic
and depends on nothing but the cell sequence in file order: the resolved
dates of the first `n` rows are fully determined by `today` and the first
`n` `WorkoutDate` cells, so any two runs at the same clock date over inputs
agreeing on a prefix agree on the resolved prefix — but runs at different
clock dates may differ on under-specified date cells such as `"05/03"`. -/
theorem forward_fill_deterministic_fixed_clock (today : CalDate)
    (cells₁ cells₂ : List Cell) (n : Nat) (h : cells₁.take n = cells₂.take n) :
    (cleanedDatesAt today cells₁).take n = (cleanedDatesAt today cells₂).take n := by
  have h1 := cleanedDatesAtAux_take today cells₁ none n
  have h2 := cleanedDatesAtAux_take today cells₂ none n
  unfold cleanedDatesAt
  rw [← h1, ← h2, h]

/-- Witness for C8 (amended): at a fixed clock date, two sheets agreeing on
their first two date cells (one of them under-specified) but differing
afterwards resolve the first two rows identically. -/
theorem forward_fill_deterministic_fixed_clock_witness :
    ([some "05/03", some "Chest + Back"] : List Cell).take 2 =
      ([some "05/03", some "Chest + Back", some "06/03/2024"] : List Cell).take 2
    ∧ (cleanedDatesAt ⟨2024, 1, 1⟩ [some "05/03", some "Chest + Back"]).take 2 =
      (cleanedDatesAt ⟨2024, 1, 1⟩
        [some "05/03", some "Chest + Back", some "06/03/2024"]).take 2 :=
  ⟨by decide,
   forward_fill_deterministic_fixed_clock ⟨2024, 1, 1⟩
     [some "05/03", some "Chest + Back"]
     [some "05/03", some "Chest + Back", some "06/03/2024"] 2 (by decide)⟩

/-! ## C4 — missing required columns fail fast -/

/-- C4.  When the uploaded file lacks one or more of the required columns,
`import_excel_workouts` fails with `success = false`, performs no store call
at all, and its message is built from exactly the missing column names. -/
theorem missing_columns_fail_fast (file : UploadedFile)
    (h : missingColumns file.cols ≠ []) :
    (importExcel file).success = false
    ∧ (importExcel file).trace = []
    ∧ (importExcel file).message =
        "Missing columns: " ++ String.intercalate ", " (missingColumns file.cols) := by
  unfold importExcel
  rw [if_pos h]
  exact ⟨rfl, rfl, rfl⟩

/-- Witness for C4: a file containing only the `WorkoutID` column. -/
theorem missing_columns_fail_fast_witness :
    (importExcel ⟨["WorkoutID"], []⟩).success = false
    ∧ (importExcel ⟨["WorkoutID"], []⟩).trace = []
    ∧ (importExcel ⟨["WorkoutID"], []⟩).message =
        "Missing columns: " ++ String.intercalate ", " (missingColumns ["WorkoutID"]) :=
  missing_columns_fail_fast ⟨["WorkoutID"], []⟩ (by decide)

/-! ## Helper lemmas about the column forward-fill of `import_excel_workouts` -/

/-- Every forward-filled `WorkoutDate` value is either the initial carried
value or one of the original cells. -/
theorem ffillRowsAux_workoutDate_mem (rows : List RawRow)
    (id0 d0 e0 : Option String) :
    ∀ r' ∈ ffillRowsAux id0 d0 e0 rows,
      r'.workoutDate = d0 ∨ r'.workoutDate ∈ rows.map (·.workoutDate) := by
  induction rows generalizing id0 d0 e0 with
  | nil => simp [ffillRowsAux]
  | cons r rs ih =>
    intro r' hr'
    simp only [ffillRowsAux, List.mem_cons] at hr'
    rcases hr' with h | h
    · subst h
      cases hc : r.workoutDate with
      | none => simp [hc]
      | some x => simp [hc]
    · rcases ih _ _ _ r' h with h' | h'
      · cases hc : r.workoutDate with
        | none => rw [hc] at h'; simp [h']
        | some x => rw [hc] at h'; simp at h'; simp [h', hc]
      · simp [h']

/-- `stepNumeric` keeps the `WorkoutDate` cell of the row it coerces. -/
theorem stepNumeric_workoutDate_mem (rows : List RawRow) :
    ∀ nr ∈ stepNumeric rows, nr.workoutDate ∈ rows.map (·.workoutDate) := by
  intro nr hnr
  simp only [stepNumeric, List.mem_filterMap] at hnr
  obtain ⟨r, hr, hf⟩ := hnr
  cases h1 : r.reps.toNumQ with
  | none => rw [h1] at hf; cases hf
  | some q1 =>
    cases h2 : r.weightKG.toNumQ with
    | none => rw [h1, h2] at hf; cases hf
    | some q2 =>
      rw [h1, h2] at hf
      cases hf
      simpa using ⟨r, hr, rfl⟩

/-- When no `WorkoutDate` cell of the sheet parses with the strict
`%Y-%m-%d` format, the pipeline of src/utils.py:110-120 keeps no row. -/
theorem importSurvivors_eq_nil_of_no_date (rows : List RawRow)
    (h : ∀ c ∈ rows.map (·.workoutDate), c.bind parseStrictYMD = none) :
    importSurvivors rows = [] := by
  unfold importSurvivors stepDate
  rw [List.filterMap_eq_nil_iff]
  intro nr hnr
  have hmem := stepNumeric_workoutDate_mem _ nr hnr
  simp only [List.mem_map] at hmem
  obtain ⟨r, hr, hdate⟩ := hmem
  have hr' : r ∈ filledRows rows := List.mem_of_mem_filter hr
  rcases ffillRowsAux_workoutDate_mem rows none none none r hr' with h0 | h0
  · rw [← hdate, h0]; rfl
  · rw [← hdate]; rw [h r.workoutDate h0]; rfl

/-! ## C6 — a file with no parseable date clears the store and succeeds -/

/-- C6.  When the required columns are present but no `WorkoutDate` cell
parses as a date, the import produces zero workout records, returns success
with the message reporting a count of 0, and its store trace still contains
the two delete-alls (followed only by the empty exercise-list insert). -/
theorem no_parseable_date_import (file : UploadedFile)
    (hcols : missingColumns file.cols = [])
    (hnodate : ∀ c ∈ file.rows.map (·.workoutDate), c.bind parseStrictYMD = none) :
    importedRecords file.rows = []
    ∧ (importExcel file).success = true
    ∧ (importExcel file).message = "Successfully imported 0 workouts"
    ∧ (importExcel file).trace =
        [.deleteAllWorkouts, .deleteAllExercises, .insertExercises []] := by
  have hsurv := importSurvivors_eq_nil_of_no_date file.rows hnodate
  have hrecs : importedRecords file.rows = [] := by
    unfold importedRecords
    rw [hsurv]
    rfl
  refine ⟨hrecs, ?_, ?_, ?_⟩ <;>
    simp [importExcel, hcols, hrecs, hsurv, chunksOf, sortedStrings, uniqueFirst,
      uniqueFirstAux, List.insertionSort] <;> rfl

/-- A concrete sheet for the C6 witness: two rows whose date cells are an
annotation and a blank. -/
def sampleSheetC6 : UploadedFile :=
  ⟨["WorkoutID", "WorkoutDate", "ExerciseName", "Reps", "WeightKG"],
   [⟨some "1", some "Chest + Back", some "Bench", .num 10, .num 20⟩,
    ⟨none, none, some "Squat", .num 5, .num 60⟩]⟩

/-- Witness for C6 at `sampleSheetC6`. -/
theorem no_parseable_date_import_witness :
    importedRecords sampleSheetC6.rows = []
    ∧ (importExcel sampleSheetC6).success = true
    ∧ (importExcel sampleSheetC6).message = "Successfully imported 0 workouts"
    ∧ (importExcel sampleSheetC6).trace =
        [.deleteAllWorkouts, .deleteAllExercises, .insertExercises []] :=
  no_parseable_date_import sampleSheetC6 (by decide) (by decide)

/-! ## Helper lemmas: chunking, dedup, sorting -/

theorem chunksOf_join (n : Nat) (hn : n ≠ 0) (l : List α) :
    (chunksOf n l).flatten = l := by
  generalize hk : l.length = k
  induction k using Nat.strong_induction_on generalizing l with
  | _ k ih =>
    unfold chunksOf
    rw [dif_neg hn]
    by_cases h : l.isEmpty
    · rw [dif_pos h]
      have hl : l = [] := by simpa using h
      simp [hl]
    · rw [dif_neg h]
      have hl : l ≠ [] := by simpa using h
      have hlen : (l.drop n).length < k := by
        subst hk
        have := List.length_pos.mpr hl
        simp only [List.length_drop]
        omega
      simp only [List.flatten]
      rw [ih _ hlen (l.drop n) rfl]
      exact List.take_append_drop n l

theorem mem_uniqueFirstAux [DecidableEq α] (l : List α) (seen : List α) (a : α) :
    a ∈ uniqueFirstAux l seen ↔ a ∈ l ∧ a ∉ seen := by
  induction l generalizing seen with
  | nil => simp [uniqueFirstAux]
  | cons b l ih =>
    by_cases hb : b ∈ seen
    · rw [uniqueFirstAux, if_pos hb, ih]
      constructor
      · rintro ⟨h1, h2⟩
        exact ⟨List.mem_cons_of_mem b h1, h2⟩
      · rintro ⟨h1, h2⟩
        rcases List.mem_cons.mp h1 with rfl | h1
        · exact absurd hb h2
        · exact ⟨h1, h2⟩
    · rw [uniqueFirstAux, if_neg hb]
      constructor
      · intro h
        rcases List.mem_cons.mp h with rfl | h
        · exact ⟨List.mem_cons_self a l, hb⟩
        · obtain ⟨h1, h2⟩ := (ih (b :: seen)).mp h
          have h3 : a ∉ seen := fun hc => h2 (List.mem_cons_of_mem b hc)
          exact ⟨List.mem_cons_of_mem b h1, h3⟩
      · rintro ⟨h1, h2⟩
        rcases List.mem_cons.mp h1 with rfl | h1
        · exact List.mem_cons_self a _
        · by_cases hab : a = b
          · subst hab; exact List.mem_cons_self a _
          · refine List.mem_cons_of_mem b ((ih (b :: seen)).mpr ⟨h1, ?_⟩)
            intro hc
            rcases List.mem_cons.mp hc with h | h
            · exact hab h
            · exact h2 h

theorem nodup_uniqueFirstAux [DecidableEq α] (l : List α) (seen : List α) :
    (uniqueFirstAux l seen).Nodup := by
  induction l generalizing seen with
  | nil => simp [uniqueFirstAux]
  | cons b l ih =>
    by_cases hb : b ∈ seen
    · rw [uniqueFirstAux, if_pos hb]
      exact ih seen
    · rw [uniqueFirstAux, if_neg hb, List.nodup_cons]
      refine ⟨fun hmem => ?_, ih (b :: seen)⟩
      exact ((mem_uniqueFirstAux l (b :: seen) b).mp hmem).2 (List.mem_cons_self b seen)

theorem mem_uniqueFirst [DecidableEq α] (l : List α) (a : α) :
    a ∈ uniqueFirst l ↔ a ∈ l := by
  rw [uniqueFirst, mem_uniqueFirstAux]
  simp

/-! ## C3 — order of the replace-all store operations -/

/-- C3.  On a successful replace-all import the store calls happen in exactly
the order delete-all workouts, the chunked bulk-insert of the new workout
records (whose concatenation is the full record sequence), delete-all
exercises, bulk-insert of the exercise names — and the inserted name list is
sorted, duplicate-free, and contains exactly the distinct exercise values of
the inserted records. -/
theorem replace_all_store_order (file : UploadedFile)
    (hcols : missingColumns file.cols = [])
    (hnames : ((importSurvivors file.rows).map (fun p => p.1.exerciseName)).all
        Option.isSome = true) :
    (importExcel file).success = true
    ∧ (importExcel file).trace =
        [.deleteAllWorkouts]
          ++ (chunksOf 100 (importedRecords file.rows)).map StoreOp.insertWorkouts
          ++ [.deleteAllExercises,
              .insertExercises (sortedStrings (uniqueFirst
                (((importSurvivors file.rows).map (fun p => p.1.exerciseName)).filterMap id)))]
    ∧ (chunksOf 100 (importedRecords file.rows)).flatten = importedRecords file.rows
    ∧ (sortedStrings (uniqueFirst
        (((importSurvivors file.rows).map (fun p => p.1.exerciseName)).filterMap id))).Sorted
          (· ≤ ·)
    ∧ (sortedStrings (uniqueFirst
        (((importSurvivors file.rows).map (fun p => p.1.exerciseName)).filterMap id))).Nodup
    ∧ ∀ s, s ∈ sortedStrings (uniqueFirst
        (((importSurvivors file.rows).map (fun p => p.1.exerciseName)).filterMap id)) ↔
          some s ∈ (importedRecords file.rows).map (·.exercise) := by
  have hne : ¬ missingColumns file.cols ≠ [] := by simp [hcols]
  refine ⟨?_, ?_, chunksOf_join 100 (by decide) _, ?_, ?_, ?_⟩
  · simp [importExcel, hne, hnames]
  · simp [importExcel, hne, hnames]
  · exact List.sorted_insertionSort _ _
  · exact ((List.perm_insertionSort _ _).symm).nodup
      (nodup_uniqueFirstAux _ [])
  · intro s
    rw [sortedStrings]
    rw [(List.perm_insertionSort (· ≤ ·)
      (uniqueFirst (((importSurvivors file.rows).map (fun p => p.1.exerciseName)).filterMap
        id))).mem_iff]
    rw [mem_uniqueFirst]
    rw [List.mem_filterMap]
    constructor
    · rintro ⟨o, ho, rfl⟩
      simpa [importedRecords, workoutRecordOf, List.map_map] using ho
    · intro h
      refine ⟨some s, ?_, rfl⟩
      simpa [importedRecords, workoutRecordOf, List.map_map] using h

/-- The spec's end-to-end example sheet (three rows, an annotation date cell
in the middle), used as the C3 witness. -/
def sampleSheetC3 : UploadedFile :=
  ⟨["WorkoutID", "WorkoutDate", "ExerciseName", "Reps", "WeightKG"],
   [⟨some "1", some "2024-06-01", some "Bench Press", .num 10, .num 20⟩,
    ⟨none, some "Chest Day", none, .num 8, .num 22⟩,
    ⟨some "2", some "2024-06-02", some "Squat", .num 5, .num 60⟩]⟩

/-- Witness for C3 at `sampleSheetC3`. -/
theorem replace_all_store_order_witness :
    (importExcel sampleSheetC3).success = true
    ∧ (importExcel sampleSheetC3).trace =
        [.deleteAllWorkouts]
          ++ (chunksOf 100 (importedRecords sampleSheetC3.rows)).map StoreOp.insertWorkouts
          ++ [.deleteAllExercises,
              .insertExercises (sortedStrings (uniqueFirst
                (((importSurvivors sampleSheetC3.rows).map
                  (fun p => p.1.exerciseName)).filterMap id)))]
    ∧ (chunksOf 100 (importedRecords sampleSheetC3.rows)).flatten =
        importedRecords sampleSheetC3.rows
    ∧ (sortedStrings (uniqueFirst
        (((importSurvivors sampleSheetC3.rows).map
          (fun p => p.1.exerciseName)).filterMap id))).Sorted (· ≤ ·)
    ∧ (sortedStrings (uniqueFirst
        (((importSurvivors sampleSheetC3.rows).map
          (fun p => p.1.exerciseName)).filterMap id))).Nodup
    ∧ ∀ s, s ∈ sortedStrings (uniqueFirst
        (((importSurvivors sampleSheetC3.rows).map
          (fun p => p.1.exerciseName)).filterMap id)) ↔
          some s ∈ (importedRecords sampleSheetC3.rows).map (·.exercise) :=
  replace_all_store_order sampleSheetC3 (by decide) (by decide)

/-! ## C5 — the imported-row count -/

/-- The resolved date of each row position of `import_excel_workouts`: the
forward-filled `WorkoutDate` cell of that position, parsed with the strict
`%Y-%m-%d` format. -/
def resolvedDateAt (rows : List RawRow) : List (Option CalDate) :=
  (ffill (rows.map (·.workoutDate))).map (fun c => c.bind parseStrictYMD)

/-- A row with no valid numeric `Reps`/`WeightKG` (the claim's first
subtracted category). -/
def badNum (r : RawRow) : Bool :=
  !(r.reps.toNumQ.isSome && r.weightKG.toNumQ.isSome)

/-- The number of input rows with no valid numeric `Reps`/`WeightKG`. -/
def badNumCount (rows : List RawRow) : Nat :=
  rows.countP badNum

/-- The number of input rows with no date resolved by the time they occur
(the claim's second subtracted category). -/
def noDateCount (rows : List RawRow) : Nat :=
  (resolvedDateAt rows).countP (fun d => d.isNone)

/-- One row through the three filters of src/utils.py:112-120: the composed
pipeline keeps the head exactly when its numerics coerce and its (filled)
date cell parses. -/
theorem pipeline_length_cons (r' : RawRow) (L : List RawRow) :
    (stepDate (stepNumeric (stepDropBlankNums (r' :: L)))).length =
      (if r'.reps.toNumQ.isSome && r'.weightKG.toNumQ.isSome &&
          (r'.workoutDate.bind parseStrictYMD).isSome then 1 else 0) +
        (stepDate (stepNumeric (stepDropBlankNums L))).length := by
  rcases r' with ⟨id, date, ex, reps, weight⟩
  cases reps <;> cases weight <;>
    simp only [stepDropBlankNums, List.filter_cons, NumCell.isBlank, NumCell.toNumQ,
      Bool.not_true, Bool.not_false, Bool.false_and, Bool.and_false, Bool.true_and,
      Bool.and_true, Option.isSome_none, Option.isSome_some, if_true, if_false,
      Bool.false_eq_true, Bool.true_eq_false, ite_true, ite_false, stepNumeric,
      List.filterMap_cons, stepDate] <;>
    (cases date with
      | none => simp
      | some s => cases hd : parseStrictYMD s <;> simp [hd, Nat.add_comm])

/-- The survivor-count bookkeeping of the pipeline, generalised over the
carried forward-fill state: the rows that survive src/utils.py:110-120 are
exactly the positions with numeric `Reps`/`WeightKG` and a resolved date. -/
theorem survivors_length_aux (rs : List RawRow) (id0 d0 e0 : Option String) :
    (stepDate (stepNumeric (stepDropBlankNums (ffillRowsAux id0 d0 e0 rs)))).length =
      (rs.zip ((ffillAux d0 (rs.map (·.workoutDate))).map
        (fun c => c.bind parseStrictYMD))).countP
        (fun p => p.1.reps.toNumQ.isSome && p.1.weightKG.toNumQ.isSome && p.2.isSome) := by
  induction rs generalizing id0 d0 e0 with
  | nil => rfl
  | cons r rs ih =>
    obtain ⟨rid, rdate, rex, rreps, rweight⟩ := r
    simp only [ffillRowsAux]
    rw [pipeline_length_cons]
    simp only [List.map_cons, ffillAux, List.zip_cons_cons, List.countP_cons]
    rw [ih, Nat.add_comm]
    cases rdate <;> rfl

/-- Length form of the pipeline count over the whole sheet. -/
theorem importedRecords_length (rows : List RawRow) :
    (importedRecords rows).length =
      (rows.zip (resolvedDateAt rows)).countP
        (fun p => p.1.reps.toNumQ.isSome && p.1.weightKG.toNumQ.isSome && p.2.isSome) := by
  unfold importedRecords importSurvivors filledRows resolvedDateAt ffill
  rw [List.length_map]
  exact survivors_length_aux rows none none none

theorem ffillAux_length (l : List (Option α)) (last : Option α) :
    (ffillAux last l).length = l.length := by
  induction l generalizing last with
  | nil => rfl
  | cons c cs ih => simp [ffillAux, ih]

theorem resolvedDateAt_length (rows : List RawRow) :
    (resolvedDateAt rows).length = rows.length := by
  unfold resolvedDateAt ffill
  rw [List.length_map, ffillAux_length, List.length_map]

/-- A concrete four-row sheet whose first row fails both checks at once:
blank numerics and an unresolved date. -/
def sampleSheetC5 : List RawRow :=
  [⟨some "1", some "junk", some "Bench", .blank, .blank⟩,
   ⟨none, some "2024-06-01", none, .num 10, .num 20⟩,
   ⟨none, some "2024-06-01", none, .num 8, .num 20⟩,
   ⟨none, some "2024-06-02", none, .num 5, .num 60⟩]

/-- Counterexample to C5 as stated: on `sampleSheetC5` the import keeps 3 of
the 4 rows, but the claimed formula `rows − badNumeric − noDate` counts the
doubly-defective first row twice and yields 2. -/
theorem import_count_claim_counterexample :
    ¬ (((importedRecords sampleSheetC5).length : Int) =
        (sampleSheetC5.length : Int) - badNumCount sampleSheetC5 - noDateCount sampleSheetC5) := by
  decide

/-- C5, amended.  The number of imported records never exceeds the number of
input rows, and equals the number of input rows minus the number of rows that
fail at least one of the two checks (no valid numeric reps/weight, or no date
resolved by the time they occur); the two defect categories can overlap, so
they cannot be subtracted separately. -/
theorem countP_bool_split (l : List α) (p : α → Bool) :
    l.countP p + l.countP (fun a => !(p a)) = l.length := by
  induction l with
  | nil => rfl
  | cons a l ih =>
    simp only [List.countP_cons, List.length_cons]
    cases h : p a <;> simp [h] <;> omega

theorem countP_keep_add_countP_fail (l : List (RawRow × Option CalDate)) :
    l.countP (fun p => p.1.reps.toNumQ.isSome && p.1.weightKG.toNumQ.isSome && p.2.isSome) +
      l.countP (fun p => badNum p.1 || p.2.isNone) = l.length := by
  have hsplit := countP_bool_split l
    (fun p => p.1.reps.toNumQ.isSome && p.1.weightKG.toNumQ.isSome && p.2.isSome)
  have hcongr : l.countP
      (fun p => !(p.1.reps.toNumQ.isSome && p.1.weightKG.toNumQ.isSome && p.2.isSome)) =
      l.countP (fun p => badNum p.1 || p.2.isNone) := by
    apply List.countP_congr
    rintro ⟨r, d⟩ _
    cases d <;> cases hr : r.reps.toNumQ <;> cases hw : r.weightKG.toNumQ <;>
      simp [badNum, hr, hw]
  omega

theorem import_count_formula (rows : List RawRow) :
    (importedRecords rows).length ≤ rows.length
    ∧ (importedRecords rows).length =
        rows.length - (rows.zip (resolvedDateAt rows)).countP
          (fun p => badNum p.1 || p.2.isNone) := by
  have hlen : (rows.zip (resolvedDateAt rows)).length = rows.length := by
    rw [List.length_zip, resolvedDateAt_length, min_self]
  have hcount := importedRecords_length rows
  have hsplit := countP_keep_add_countP_fail (rows.zip (resolvedDateAt rows))
  constructor
  · calc (importedRecords rows).length
        = _ := hcount
      _ ≤ (rows.zip (resolvedDateAt rows)).length := List.countP_le_length _
      _ = rows.length := hlen
  · omega

/-! ## C7 — `sets` on the manual-entry path -/

/-- Counterexample to C7 as stated: no invocation of the manual-entry submit
handler can store a record whose `sets` differs from 1 — the form collects no
sets value and src/main.py:213 passes the literal `1` to `save_workout`, so
the user-entered `sets` of the claim does not exist on this path. -/
theorem manual_sets_counterexample :
    ¬ ∃ (d : CalDate) (ex : String) (r : Int) (w : ℚ) (rec : ManualWorkout),
        workoutFormSubmit d ex r w = some rec ∧ rec.sets ≠ 1 := by
  rintro ⟨d, ex, r, w, rec, h1, h2⟩
  unfold workoutFormSubmit at h1
  by_cases he : pyStrip ex = ""
  · rw [if_pos he] at h1
    cases h1
  · rw [if_neg he] at h1
    rw [Option.some_inj] at h1
    subst h1
    exact h2 rfl

/-- C7, amended.  `save_workout` itself stores its `sets` argument verbatim,
but the manual-entry submit handler always calls it with `sets = 1`, so
manual and imported rows alike are stored with `sets = 1`. -/
theorem manual_sets_forced_one (d : CalDate) (ex : String) (r : Int) (w : ℚ)
    (rec : ManualWorkout) (d2 : CalDate) (e2 : String) (s2 : Int) (r2 : Int) (w2 : ℚ)
    (h : workoutFormSubmit d ex r w = some rec) :
    rec.sets = 1 ∧ (save_workout d2 e2 s2 r2 w2).sets = s2 := by
  refine ⟨?_, rfl⟩
  unfold workoutFormSubmit at h
  by_cases he : pyStrip ex = ""
  · rw [if_pos he] at h
    cases h
  · rw [if_neg he] at h
    rw [Option.some_inj] at h
    subst h
    rfl

/-- Witness for C7: a concrete submit stores `sets = 1`, while a direct
`save_workout` call with `sets = 3` stores 3. -/
theorem manual_sets_forced_one_witness :
    (save_workout ⟨2024, 6, 1⟩ (titleCase (pyStrip "bench press")) 1 8 50).sets = 1
    ∧ (save_workout ⟨2024, 6, 2⟩ "Squat" 3 5 60).sets = 3 :=
  manual_sets_forced_one ⟨2024, 6, 1⟩ "bench press" 8 50
    (save_workout ⟨2024, 6, 1⟩ (titleCase (pyStrip "bench press")) 1 8 50)
    ⟨2024, 6, 2⟩ "Squat" 3 5 60 (by rfl)

/-! ## C10 — `load_data` returns at most 12,000 rows -/

instance : IsTotal StoredWorkout (fun a b => a.workout_date ≤ b.workout_date) :=
  ⟨fun a b => le_total a.workout_date b.workout_date⟩

instance : IsTrans StoredWorkout (fun a b => a.workout_date ≤ b.workout_date) :=
  ⟨fun _ _ _ hab hbc => le_trans hab hbc⟩

/-- The batching loop over offsets `k*1000, (k+1)*1000, …` returns exactly
the slice of the ordered result set those offsets cover: the early break on
an empty batch loses nothing, because batches of a list are empty only past
its end. -/
theorem batchLoop_eq_take (l : List StoredWorkout) (n : Nat) :
    ∀ k : Nat, batchLoop l ((List.range' k n).map (· * 1000)) =
      (l.drop (k * 1000)).take (n * 1000) := by
  induction n with
  | zero => intro k; simp [batchLoop]
  | succ m ih =>
    intro k
    rw [List.range'_succ]
    simp only [List.map_cons, batchLoop]
    by_cases hb : ((l.drop (k * 1000)).take 1000).isEmpty
    · rw [if_pos hb]
      have hlen : l.length ≤ k * 1000 := by simpa using hb
      have hnil : l.drop (k * 1000) = [] := List.drop_eq_nil_of_le hlen
      rw [hnil]
      simp
    · rw [if_neg hb]
      rw [ih (k + 1)]
      have hdd : l.drop ((k + 1) * 1000) = (l.drop (k * 1000)).drop 1000 := by
        rw [List.drop_drop]
        have h3 : (k + 1) * 1000 = k * 1000 + 1000 := by ring
        rw [h3]
      have harith : (m + 1) * 1000 = 1000 + m * 1000 := by ring
      rw [hdd, harith, List.take_add]

/-- `load_data` is the 12,000-row prefix of the ordered query result. -/
theorem load_data_eq_take (store : List StoredWorkout) (today : Int)
    (last45Days : Bool) :
    load_data store today last45Days = (queryRows store today last45Days).take 12000 := by
  unfold load_data
  rw [List.range_eq_range', batchLoop_eq_take (queryRows store today last45Days) 12 0]
  simp

/-- C10.  `load_data` returns exactly the first 12,000 rows of the
date-ordered (and optionally 45-day-filtered) query result — so it never
returns more than 12,000 records, the rows it returns are ordered by
`workout_date`, and any row past the 12,000-offset bound is silently never
returned. -/
theorem load_data_truncates_at_12000 (store : List StoredWorkout) (today : Int)
    (last45Days : Bool) :
    load_data store today last45Days = (queryRows store today last45Days).take 12000
    ∧ (load_data store today last45Days).length ≤ 12000
    ∧ (load_data store today last45Days).Sorted
        (fun a b => a.workout_date ≤ b.workout_date) := by
  have hmain := load_data_eq_take store today last45Days
  refine ⟨hmain, ?_, ?_⟩
  · rw [hmain]
    simpa using List.length_take_le 12000 (queryRows store today last45Days)
  · rw [hmain]
    have hsorted : (queryRows store today last45Days).Sorted
        (fun a b => a.workout_date ≤ b.workout_date) :=
      List.sorted_insertionSort _ _
    exact hsorted.sublist (List.take_sublist _ _)

/-! ## C9 — replicating a day's workouts -/

/-- A store whose only workout lies 100 days in the past, for the C9
counterexample. -/
def staleStore : List StoredWorkout :=
  [⟨1, 900, "Squat", 1, 5, 60⟩]

/-- Counterexample to C9 as stated: with today = 1000, the store records a
workout on day 900, yet replicating day 900 fails with `success = false` and
inserts nothing — `replicate_day_workouts` reads through `load_data()` whose
default window only reaches 45 days back. -/
theorem replicate_day_counterexample :
    (replicate_day_workouts staleStore 1000 900).1 = false
    ∧ (replicate_day_workouts staleStore 1000 900).2.2 = []
    ∧ staleStore.filter (fun w => w.workout_date = 900) ≠ [] := by
  refine ⟨by decide, by decide, by decide⟩

/-- C9, amended.  Replication copies exactly the workouts of the source date
among the rows `load_data` returns (the last 45 days, within the 12,000-row
cap): it fails with no insertion exactly when no loaded row has the source
date, and otherwise inserts, for every loaded workout of that date, a copy
dated today with exercise, sets, reps and weight unchanged — in particular
every stored workout on the source date within the 45-day window of a store
of at most 12,000 rows is copied. -/
theorem replicate_day_loaded (store : List StoredWorkout) (today source : Int)
    (hlen : store.length ≤ 12000) :
    ((replicate_day_workouts store today source).1 = false ↔
      (load_data store today true).filter (fun w => w.workout_date = source) = [])
    ∧ ((replicate_day_workouts store today source).1 = false →
        (replicate_day_workouts store today source).2.2 = [])
    ∧ ((replicate_day_workouts store today source).1 = true →
        (replicate_day_workouts store today source).2.2 =
          ((load_data store today true).filter
            (fun w => w.workout_date = source)).map (replicatedCopy today))
    ∧ (∀ w ∈ store, w.workout_date = source → today - 45 ≤ w.workout_date →
        replicatedCopy today w ∈ (replicate_day_workouts store today source).2.2) := by
  have hload : load_data store today true =
      sortByDate (store.filter (fun w => today - 45 ≤ w.workout_date)) := by
    rw [load_data_eq_take store today true]
    unfold queryRows
    apply List.take_of_length_le
    calc (sortByDate (store.filter (fun w => today - 45 ≤ w.workout_date))).length
        = (store.filter (fun w => today - 45 ≤ w.workout_date)).length :=
          (List.perm_insertionSort _ _).length_eq
      _ ≤ store.length := List.length_filter_le _ _
      _ ≤ 12000 := hlen
  unfold replicate_day_workouts
  by_cases hempty : ((load_data store today true).filter
      (fun w => w.workout_date = source)).isEmpty
  · rw [if_pos hempty]
    have hnil := List.isEmpty_iff.mp hempty
    refine ⟨by simp [hnil], fun _ => rfl, by simp, ?_⟩
    intro w hw hws hw45
    exfalso
    have hmem : w ∈ (load_data store today true).filter
        (fun w => w.workout_date = source) := by
      rw [hload]
      rw [List.mem_filter]
      refine ⟨?_, by simp [hws]⟩
      unfold sortByDate
      rw [(List.perm_insertionSort _ _).mem_iff]
      rw [List.mem_filter]
      exact ⟨hw, by simp [hw45]⟩
    rw [hnil] at hmem
    cases hmem
  · rw [if_neg hempty]
    have hne := List.isEmpty_iff.not.mp hempty
    refine ⟨by simpa using hne, by simp, fun _ => rfl, ?_⟩
    intro w hw hws hw45
    rw [List.mem_map]
    refine ⟨w, ?_, rfl⟩
    rw [hload]
    rw [List.mem_filter]
    refine ⟨?_, by simp [hws]⟩
    unfold sortByDate
    rw [(List.perm_insertionSort _ _).mem_iff]
    rw [List.mem_filter]
    exact ⟨hw, by simp [hw45]⟩

/-- A store with one recent workout, for the C9 witness. -/
def recentStore : List StoredWorkout :=
  [⟨1, 980, "Squat", 1, 5, 60⟩]

/-- Witness for C9 (amended) at `recentStore` with today = 1000 and source
date 980. -/
theorem replicate_day_loaded_witness :
    ((replicate_day_workouts recentStore 1000 980).1 = false ↔
      (load_data recentStore 1000 true).filter (fun w => w.workout_date = 980) = [])
    ∧ ((replicate_day_workouts recentStore 1000 980).1 = false →
        (replicate_day_workouts recentStore 1000 980).2.2 = [])
    ∧ ((replicate_day_workouts recentStore 1000 980).1 = true →
        (replicate_day_workouts recentStore 1000 980).2.2 =
          ((load_data recentStore 1000 true).filter
            (fun w => w.workout_date = 980)).map (replicatedCopy 1000))
    ∧ (∀ w ∈ recentStore, w.workout_date = 980 → (1000 : Int) - 45 ≤ w.workout_date →
        replicatedCopy 1000 w ∈ (replicate_day_workouts recentStore 1000 980).2.2) :=
  replicate_day_loaded recentStore 1000 980 (by decide)

end LiftLog
